import Mathlib

/-!
Verification of the column-shuffling program in `src/csv_shuffle.py`.

The Python source is shallowly embedded below: each embedded definition
mirrors one function (or one block) of the source file, keeping the
source's names where Lean allows it.  Python lists become Lean lists,
Python dicts with known keys become structures with `Option` fields
(`none` models an absent key), Python exceptions become `Except`, and
integer values that may be negative are `Int`.
-/

/-! ### Constants (lines 13-14 of the source) -/

def DEFAULT_CHARACTER_ENCODING : String := "utf-8"

def DEFAULT_ENCODING_ERRORS : String := "backslashreplace"

/-! ### `_column_to_index` (lines 17-43)

The Python loop walks the characters of `column`; each character that is
an ASCII letter contributes `ord(ch.upper()) - ord('A') + 1` to the
running bijective base-26 accumulator, and every other character is
skipped.  The final result is the accumulator minus one.  `letterVal c`
is the value `ord(c.upper()) - ord('A') + 1` for an ASCII letter `c`,
written directly on code points (97 = `ord a`, 65 = `ord A`). -/

def isAsciiLetter (c : Char) : Bool :=
  (97 ≤ c.toNat && c.toNat ≤ 122) || (65 ≤ c.toNat && c.toNat ≤ 90)

def letterVal (c : Char) : Nat :=
  if 97 ≤ c.toNat && c.toNat ≤ 122 then c.toNat - 97 + 1 else c.toNat - 65 + 1

def columnToIndexAux : Nat → List Char → Nat
  | num, [] => num
  | num, c :: rest =>
    if isAsciiLetter c then columnToIndexAux (num * 26 + letterVal c) rest
    else columnToIndexAux num rest

def column_to_index (column : String) : Int :=
  (columnToIndexAux 0 column.data : Int) - 1

/-- Specification-side definition: the value of a bijective base-26
numeral (digit of `c` = `ord(upper c) - ord A + 1`, most significant
digit first), written as a positional weighted sum rather than as the
source's accumulator loop. -/
def bijValue : List Char → Nat
  | [] => 0
  | c :: rest => letterVal c * 26 ^ rest.length + bijValue rest

/-- The uppercase form of a string, character by character
(`Char.toUpper` maps exactly the ASCII letters `a`-`z` to `A`-`Z`, like
Python `str.upper` on ASCII input). -/
def pyUpper (s : String) : String := String.mk (s.data.map Char.toUpper)

/-! ### The `params` dictionary

`_validate_config` builds a dict whose possible keys are fixed; it is
modelled as a structure of `Option` fields (`none` = key absent). -/

structure ConfigMap where
  input_data_type : Option String := none
  input_file_path : Option String := none
  input_sheet_name : Option String := none
  output_file_path : Option String := none
  character_encoding : Option String := none
  character_encoding_errors : Option String := none
  column_headers : Option (List String) := none
  column_letters : Option (List String) := none
  column_indexes : Option (List Int) := none
deriving Repr, DecidableEq

/-! ### `_calculate_output_indexes` (lines 46-112) -/

/-- A single quote character, used by the Python `repr` of strings. -/
def squote : String := String.singleton (Char.ofNat 39)

/-- The Python `str()` form of a list of strings (as interpolated by an
f-string, e.g. `['id', 'name']`), for strings without escapes. -/
def pyReprItems : List String → String
  | [] => ""
  | [s] => squote ++ s ++ squote
  | s :: rest => squote ++ s ++ squote ++ ", " ++ pyReprItems rest

def pyReprList (xs : List String) : String :=
  "[" ++ pyReprItems xs ++ "]"

/-- The inner loop of the header branch (lines 91-94): scan `in_headers`
left to right, `break` at the first header equal to `name`. -/
def findHeaderIndexAux (name : String) : Nat → List String → Option Nat
  | _, [] => none
  | i, h :: rest => if name = h then some i else findHeaderIndexAux name (i + 1) rest

def findHeaderIndex (in_headers : List String) (name : String) : Option Nat :=
  findHeaderIndexAux name 0 in_headers

/-- Error text of line 103-104 of the source
(`some headers {unmatched} matched nothing in original headers {in_headers}`). -/
def headerErrMsg (unmatched in_headers : List String) : String :=
  "some headers " ++ pyReprList unmatched ++ " matched nothing in original headers "
    ++ pyReprList in_headers

/-- Lines 88-104: each requested header contributes its first-match
position to `out_indexes` (in request order) or, failing that, itself to
`unmatched`. -/
def resolveHeaders (in_headers out_headers : List String) :
    Bool × Option String × List Int :=
  let out_indexes := out_headers.filterMap
    fun h => (findHeaderIndex in_headers h).map Int.ofNat
  let unmatched := out_headers.filter fun h => (findHeaderIndex in_headers h).isNone
  if unmatched.length = 0 then
    (true, none, out_indexes)
  else
    (false, some (headerErrMsg unmatched in_headers), out_indexes)

/-- Lines 46-112.  `('k' in params) and (len(params['k']) > 0)` becomes
`0 < (field.getD []).length`: false when the key is absent (`none`) or
maps to an empty list. -/
def calculateOutputIndexes (in_headers : Option (List String)) (params : ConfigMap) :
    Bool × Option String × List Int :=
  if 0 < (params.column_indexes.getD []).length then
    (true, none, params.column_indexes.getD [])
  else if 0 < (params.column_letters.getD []).length then
    (true, none, (params.column_letters.getD []).map column_to_index)
  else if 0 < (params.column_headers.getD []).length then
    match in_headers with
    | some hs => resolveHeaders hs (params.column_headers.getD [])
    | none => (false, some "in_headers must be provided with out_headers", [])
  else
    (false, some "no input indexes provided", [])

/-! ### Projection and the driver `main` (lines 379-424)

Reading of the input file is not modelled (it is I/O); `mainStep` takes
the already-loaded `data_rows_in` and returns the rows that would be
written, or the text of the `RuntimeError` / uncaught `IndexError` that
aborts the run.  `pyGetElem` is Python list subscription `row[index]`:
negative indexes count from the end, and any out-of-range access raises
`IndexError: list index out of range`. -/

def pyGetElem (row : List String) (i : Int) : Except String String :=
  let j : Int := if i < 0 then i + row.length else i
  if j < 0 then .error "list index out of range"
  else
    match row.get? j.toNat with
    | some v => .ok v
    | none => .error "list index out of range"

/-- The inner loop of lines 418-420: build one output row by subscripting
`row` at each resolved index in order; the first out-of-range subscript
aborts. -/
def projectRow (row : List String) : List Int → Except String (List String)
  | [] => .ok []
  | i :: rest =>
    match pyGetElem row i with
    | .error e => .error e
    | .ok v =>
      match projectRow row rest with
      | .error e => .error e
      | .ok vs => .ok (v :: vs)

/-- The outer loop of lines 417-421, over every loaded row in order. -/
def projectRows (rows : List (List String)) (output_indexes : List Int) :
    Except String (List (List String)) :=
  match rows with
  | [] => .ok []
  | row :: rest =>
    match projectRow row output_indexes with
    | .error e => .error e
    | .ok outRow =>
      match projectRows rest output_indexes with
      | .error e => .error e
      | .ok outRows => .ok (outRow :: outRows)

/-- How a Python f-string renders an `Optional[str]`. -/
def pyStrOpt : Option String → String
  | some s => s
  | none => "None"

/-- Lines 398-424 of `main`, starting after the input file has been read
into `data_rows_in`.  `input_file_path` is the value of
`params['input_file_path']`.  The `.ok` payload is the list of rows
handed to `csv_writer.writerow`; an `.error` is the message of the
exception that ends the run. -/
def mainStep (input_file_path : String) (params : ConfigMap)
    (data_rows_in : List (List String)) : Except String (List (List String)) :=
  match data_rows_in with
  | [] =>
    .error ("Failed to read any data rows from input data file (" ++ input_file_path)
  | first :: _ =>
    match calculateOutputIndexes (some first) params with
    | (valid_indexes, err_indexes, output_indexes) =>
      if valid_indexes then
        projectRows data_rows_in output_indexes
      else
        .error ("failed to translate data_columns to data index numbers: "
          ++ pyStrOpt err_indexes)

/-! ### `_validate_config` (lines 230-376)

The filesystem calls (`os.path.isdir`, `os.access`, `os.path.isfile`,
`os.path.abspath`, `os.path.join`) are modelled by an explicit
environment of pure functions, and the `ConfigParser` by a section
predicate together with an option lookup
(`has_option s o` iff `getOpt s o` is `some`). -/

structure FS where
  isdir : String → Bool
  isfile : String → Bool
  accessR : String → Bool
  accessW : String → Bool
  abspath : String → String
  join : String → String → String

structure ConfigRaw where
  hasSection : String → Bool
  getOpt : String → String → Option String

/-- Python `str.splitlines` restricted to `\n` separators: no entry for a
trailing newline, and the empty string has no lines. -/
def pySplitlines (s : String) : List String :=
  if s = "" then []
  else
    let parts := s.splitOn "\n"
    if parts.getLast? = some "" then parts.dropLast else parts

/-- Python `int(s)` on an already-stripped string: an optional sign
followed by at least one digit; `none` models the `ValueError`. -/
def pyInt (s : String) : Option Int :=
  let digitsToNat : List Char → Nat :=
    fun ds => ds.foldl (fun acc c => acc * 10 + (c.toNat - 48)) 0
  match s.data with
  | [] => none
  | c :: rest =>
    if c = Char.ofNat 45 then
      if rest ≠ [] ∧ rest.all Char.isDigit then some (-(digitsToNat rest : Int)) else none
    else if c = Char.ofNat 43 then
      if rest ≠ [] ∧ rest.all Char.isDigit then some (digitsToNat rest : Int) else none
    else if (c :: rest).all Char.isDigit then some (digitsToNat (c :: rest) : Int)
    else none

/-- The list comprehension of lines 360-361: `int()` each entry, the
first failure raising `ValueError`. -/
def parseIntLines : List String → Except String (List Int)
  | [] => .ok []
  | s :: rest =>
    match pyInt s with
    | some v =>
      match parseIntLines rest with
      | .error e => .error e
      | .ok vs => .ok (v :: vs)
    | none =>
      .error ("invalid literal for int() with base 10: " ++ squote ++ s ++ squote)

/-- Lines 253-261: check of `data_files.input_path`. -/
def inputPathProblems (fs : FS) (cfg : ConfigRaw) : List String :=
  match cfg.getOpt "data_files" "input_path" with
  | some p =>
    if fs.isdir p && fs.accessR p then []
    else ["data_files.input_path is not a readable directory"]
  | none => ["data_files.input_path not defined"]

/-- Lines 263-267: check of `data_files.input_file_name`. -/
def inputNameProblems (cfg : ConfigRaw) : List String :=
  match cfg.getOpt "data_files" "input_file_name" with
  | some _ => []
  | none => ["data_files.input_file_name not defined"]

/-- Lines 269-275: check of `data_files.input_file_extension`. -/
def inputExtProblems (cfg : ConfigRaw) : List String :=
  match cfg.getOpt "data_files" "input_file_extension" with
  | some _ => []
  | none => ["data_files.input_file_extension not defined"]

/-- The derived input file path of lines 280-282. -/
def derivedInputFilePath (fs : FS) (p n e : String) : String :=
  fs.join (fs.abspath p) (n ++ "." ++ e)

/-- Lines 277-288: existence check of the derived input file path (note
the unbalanced parenthesis of the source's message). -/
def inputFileProblems (fs : FS) (cfg : ConfigRaw) : List String :=
  match cfg.getOpt "data_files" "input_path",
      cfg.getOpt "data_files" "input_file_name",
      cfg.getOpt "data_files" "input_file_extension" with
  | some p, some n, some e =>
    let fp := derivedInputFilePath fs p n e
    if fs.isfile fp && fs.accessR fp then []
    else ["input_file_path (" ++ fp ++ " is not a readable file"]
  | _, _, _ => []

/-- Lines 290-295: `input_sheet_name` must exist when the extension is
`xlsx`. -/
def sheetProblems (cfg : ConfigRaw) : List String :=
  match cfg.getOpt "data_files" "input_sheet_name" with
  | some _ => []
  | none =>
    if cfg.getOpt "data_files" "input_file_extension" = some "xlsx" then
      ["data_files.input_sheet_name must be defined when "
        ++ "data_files.input_file_extension is xlsx"]
    else []

/-- Lines 297-305: check of `data_files.output_path`. -/
def outputPathProblems (fs : FS) (cfg : ConfigRaw) : List String :=
  match cfg.getOpt "data_files" "output_path" with
  | some p =>
    if fs.isdir p && fs.accessW p then []
    else ["data_files.output_path is not a writeable directory"]
  | none => ["data_files.output_path not defined"]

/-- Lines 307-311: check of `data_files.output_file_name`. -/
def outputNameProblems (cfg : ConfigRaw) : List String :=
  match cfg.getOpt "data_files" "output_file_name" with
  | some _ => []
  | none => ["data_files.output_file_name not defined"]

/-- Lines 313-318: check of `data_files.output_file_extension`. -/
def outputExtProblems (cfg : ConfigRaw) : List String :=
  match cfg.getOpt "data_files" "output_file_extension" with
  | some _ => []
  | none => ["data_files.output_file_extension not defined"]

/-- All problems appended to `invalid` inside the `data_files` branch, in
source order (lines 253-318). -/
def dataFilesProblems (fs : FS) (cfg : ConfigRaw) : List String :=
  inputPathProblems fs cfg ++ inputNameProblems cfg ++ inputExtProblems cfg
    ++ inputFileProblems fs cfg ++ sheetProblems cfg ++ outputPathProblems fs cfg
    ++ outputNameProblems cfg ++ outputExtProblems cfg

/-- The `config_map` entries set inside the `data_files` branch
(lines 269-339). -/
def dataFilesMap (fs : FS) (cfg : ConfigRaw) : ConfigMap :=
  { input_data_type := cfg.getOpt "data_files" "input_file_extension"
    input_file_path :=
      match cfg.getOpt "data_files" "input_path",
          cfg.getOpt "data_files" "input_file_name",
          cfg.getOpt "data_files" "input_file_extension" with
      | some p, some n, some e =>
        let fp := derivedInputFilePath fs p n e
        if fs.isfile fp && fs.accessR fp then some fp else none
      | _, _, _ => none
    input_sheet_name := cfg.getOpt "data_files" "input_sheet_name"
    output_file_path :=
      match cfg.getOpt "data_files" "output_path",
          cfg.getOpt "data_files" "output_file_name",
          cfg.getOpt "data_files" "output_file_extension" with
      | some p, some n, some e => some (fs.join (fs.abspath p) (n ++ "." ++ e))
      | _, _, _ => none
    character_encoding :=
      some ((cfg.getOpt "data_files" "character_encoding").getD
        DEFAULT_CHARACTER_ENCODING)
    character_encoding_errors :=
      some ((cfg.getOpt "data_files" "character_encoding_errors").getD
        DEFAULT_ENCODING_ERRORS) }

/-- Lines 346-362: the three column options of the `data_columns`
section, each split into stripped lines; `column_indexes` entries go
through `int()`, whose `ValueError` escapes `_validate_config`. -/
def dataColumnsParsed (cfg : ConfigRaw) :
    Except String (Option (List String) × Option (List String) × Option (List Int)) :=
  let headers := (cfg.getOpt "data_columns" "column_headers").map
    fun v => (pySplitlines v).map String.trim
  let letters := (cfg.getOpt "data_columns" "column_letters").map
    fun v => (pySplitlines v).map String.trim
  match cfg.getOpt "data_columns" "column_indexes" with
  | some v =>
    match parseIntLines ((pySplitlines v).map String.trim) with
    | .error e => .error e
    | .ok idxs => .ok (headers, letters, some idxs)
  | none => .ok (headers, letters, none)

/-- Lines 364-366: `columns_defined` check.  The source's two adjacent
string literals concatenate without a space, producing `mustbe`. -/
def dataColumnsProblems (cfg : ConfigRaw) : List String :=
  if (cfg.getOpt "data_columns" "column_headers").isNone
      ∧ (cfg.getOpt "data_columns" "column_letters").isNone
      ∧ (cfg.getOpt "data_columns" "column_indexes").isNone then
    ["one of column headers, letters, or indexes mustbe defined"]
  else []

/-- Store the parsed column options in `config_map` (each only when its
option was present). -/
def applyCols (cm : ConfigMap)
    (cols : Option (List String) × Option (List String) × Option (List Int)) :
    ConfigMap :=
  let cm1 := match cols.1 with
    | some hs => { cm with column_headers := some hs }
    | none => cm
  let cm2 := match cols.2.1 with
    | some ls => { cm1 with column_letters := some ls }
    | none => cm1
  match cols.2.2 with
  | some idxs => { cm2 with column_indexes := some idxs }
  | none => cm2

/-- The `invalid` entries accumulated by the `data_files` part
(lines 250-339): the whole section missing is one problem, otherwise the
per-field checks run. -/
def dataFilesPart (fs : FS) (cfg : ConfigRaw) : List String :=
  if cfg.hasSection "data_files" then dataFilesProblems fs cfg
  else ["data_files section not defined"]

/-- The `config_map` contents after the `data_files` part: empty when
the section is missing. -/
def dataFilesPartMap (fs : FS) (cfg : ConfigRaw) : ConfigMap :=
  if cfg.hasSection "data_files" then dataFilesMap fs cfg else {}

/-- The whole accumulation of `invalid` and `config_map`
(lines 247-366), before the final join. -/
def collectConfig (fs : FS) (cfg : ConfigRaw) :
    Except String (List String × ConfigMap) :=
  if cfg.hasSection "data_columns" then
    match dataColumnsParsed cfg with
    | .error e => .error e
    | .ok cols =>
      .ok (dataFilesPart fs cfg ++ dataColumnsProblems cfg,
        applyCols (dataFilesPartMap fs cfg) cols)
  else
    .ok (dataFilesPart fs cfg ++ ["data_columns section not defined"],
      dataFilesPartMap fs cfg)

/-- Python `", ".join`. -/
def joinComma : List String → String
  | [] => ""
  | [s] => s
  | s :: rest => s ++ ", " ++ joinComma rest

/-- Lines 230-376: the full validator.  The `.ok` payload is the returned
triple `(valid, invalid_str, config_map)`; `.error` is the uncaught
`ValueError` of `int()`. -/
def validateConfig (fs : FS) (cfg : ConfigRaw) :
    Except String (Bool × Option String × ConfigMap) :=
  match collectConfig fs cfg with
  | .error e => .error e
  | .ok (invalid, config_map) =>
    if 0 < invalid.length then
      .ok (false,
        some ("one or more invalid configuration parameters identified: "
          ++ joinComma invalid),
        config_map)
    else
      .ok (true, none, config_map)

/-! ### Sample environments for concrete validator runs -/

/-- A filesystem in which every path is a readable and writeable
directory and file; paths are already absolute and join is `/`. -/
def sampleFS : FS :=
  ⟨fun _ => true, fun _ => true, fun _ => true, fun _ => true,
    fun s => s, fun a b => a ++ "/" ++ b⟩

/-- A configuration source with both sections, in which every
`data_files` option except `output_path` is present with the value `7`
and the `data_columns` section is empty. -/
def sampleCfg : ConfigRaw :=
  ⟨fun _ => true, fun sec o =>
    if sec = "data_columns" then none
    else if o = "output_path" then none else some "7"⟩

/-- The `config_map` that `_validate_config` builds for `sampleCfg` on
`sampleFS`. -/
def sampleCM : ConfigMap :=
  { input_data_type := some "7", input_file_path := some "7/7.7",
    input_sheet_name := some "7", character_encoding := some "7",
    character_encoding_errors := some "7" }

/-- The joined error string `_validate_config` reports for `sampleCfg`. -/
def sampleMsgC8 : String :=
  "one or more invalid configuration parameters identified: "
    ++ "data_files.output_path not defined, "
    ++ "one of column headers, letters, or indexes mustbe defined"

/-! ### Helper notions and lemmas -/

/-- `strHas hay sub` says the character sequence of `sub` occurs
contiguously inside `hay` (Python `sub in hay`). -/
abbrev strHas (hay sub : String) : Prop := sub.data <:+: hay.data

theorem appendDataLeft {x : List Char} {a b : String} (h : x <:+: a.data) :
    x <:+: (a ++ b).data := by
  rw [String.data_append]
  obtain ⟨s, t, hst⟩ := h
  exact ⟨s, t ++ b.data, by rw [← hst]; simp⟩

theorem appendDataRight {x : List Char} {a b : String} (h : x <:+: b.data) :
    x <:+: (a ++ b).data := by
  rw [String.data_append]
  obtain ⟨s, t, hst⟩ := h
  exact ⟨a.data ++ s, t, by rw [← hst]; simp⟩

theorem selfMidData (a b u : String) : u.data <:+: (a ++ u ++ b).data := by
  apply appendDataLeft
  apply appendDataRight
  exact ⟨[], [], by simp⟩

theorem mem_pyReprItems : ∀ (xs : List String) (u : String), u ∈ xs →
    u.data <:+: (pyReprItems xs).data
  | [s], u, h => by
    have hu : u = s := by simpa using h
    subst hu
    show u.data <:+: (squote ++ u ++ squote).data
    exact selfMidData squote squote u
  | s :: a :: rest, u, h => by
    show u.data <:+: (squote ++ s ++ squote ++ ", " ++ pyReprItems (a :: rest)).data
    rcases List.mem_cons.mp h with hu | hu
    · subst hu
      apply appendDataLeft
      apply appendDataLeft
      exact selfMidData squote squote u
    · exact appendDataRight (mem_pyReprItems (a :: rest) u hu)

theorem mem_joinComma : ∀ (xs : List String) (u : String), u ∈ xs →
    u.data <:+: (joinComma xs).data
  | [s], u, h => by
    have hu : u = s := by simpa using h
    subst hu
    exact ⟨[], [], by simp [joinComma]⟩
  | s :: a :: rest, u, h => by
    show u.data <:+: (s ++ ", " ++ joinComma (a :: rest)).data
    rcases List.mem_cons.mp h with hu | hu
    · subst hu
      apply appendDataLeft
      apply appendDataLeft
      exact ⟨[], [], by simp [joinComma]⟩
    · exact appendDataRight (mem_joinComma (a :: rest) u hu)

theorem mem_pyReprList (xs : List String) (u : String) (h : u ∈ xs) :
    u.data <:+: (pyReprList xs).data := by
  show u.data <:+: ("[" ++ pyReprItems xs ++ "]").data
  apply appendDataLeft
  exact appendDataRight (mem_pyReprItems xs u h)

/-- The first-match property of the scan of lines 91-94: a hit at `i`
(counting from `k`) means position `i - k` holds the name and no earlier
position does. -/
theorem findHeaderIndexAux_first : ∀ (hs : List String) (name : String) (k i : Nat),
    findHeaderIndexAux name k hs = some i →
    k ≤ i ∧ hs.get? (i - k) = some name ∧ ∀ j, j < i - k → hs.get? j ≠ some name
  | [], _, _, _, h => by simp [findHeaderIndexAux] at h
  | h :: rest, name, k, i, heq => by
    by_cases he : name = h
    · have hik : i = k := by
        simp [findHeaderIndexAux, if_pos he] at heq
        omega
      subst hik
      refine ⟨le_rfl, ?_, ?_⟩
      · simp [he]
      · intro j hj
        omega
    · have heq2 : findHeaderIndexAux name (k + 1) rest = some i := by
        simpa [findHeaderIndexAux, if_neg he] using heq
      obtain ⟨hk, hget, hfirst⟩ := findHeaderIndexAux_first rest name (k + 1) i heq2
      refine ⟨by omega, ?_, ?_⟩
      · have : i - k = (i - (k + 1)) + 1 := by omega
        rw [this]
        simpa using hget
      · intro j hj
        match j with
        | 0 =>
          simp only [List.get?]
          intro hc
          exact he (by injection hc with hc2; exact hc2.symm)
        | j + 1 =>
          simp only [List.get?]
          exact hfirst j (by omega)

/-- C1: whenever the `column_indexes` key is present with a non-empty
list, `_calculate_output_indexes` succeeds (`ok = true`, no error) and
returns exactly that list (Python returns a `copy.copy`, which is
value-identical), regardless of what `column_letters` or
`column_headers` hold: indexes take precedence entirely. -/
theorem indexes_take_precedence (in_headers : Option (List String)) (p : ConfigMap)
    (l : List Int) (hp : p.column_indexes = some l) (hne : l ≠ []) :
    calculateOutputIndexes in_headers p = (true, none, l) := by
  have hlen : 0 < l.length := List.length_pos.mpr hne
  simp only [calculateOutputIndexes, hp, Option.getD_some]
  rw [if_pos hlen]

/-- Witness for C1: with letters and headers also populated, the indexes
win. -/
theorem indexes_take_precedence_witness :
    calculateOutputIndexes (some ["h"])
      { column_indexes := some [2, 0], column_letters := some ["A"],
        column_headers := some ["x"] } = (true, none, [2, 0]) :=
  indexes_take_precedence (some ["h"]) _ [2, 0] rfl (by decide)

/-- C3: header-name resolution records the first (leftmost) exact
case-sensitive match: whenever the scan returns index `i`, the header
row holds the requested name at `i` and at no earlier position; and on
`header_row = [id, name, id]` with `requested = [id]` the resolver
returns `[0]`, not `[2]`. -/
theorem header_first_match_wins :
    (∀ (hs : List String) (name : String) (i : Nat),
      findHeaderIndex hs name = some i →
      hs.get? i = some name ∧ ∀ j, j < i → hs.get? j ≠ some name) ∧
    calculateOutputIndexes (some ["id", "name", "id"])
      { column_headers := some ["id"] } = (true, none, [0]) := by
  constructor
  · intro hs name i h
    obtain ⟨-, hget, hfirst⟩ := findHeaderIndexAux_first hs name 0 i h
    exact ⟨by simpa using hget, fun j hj => by simpa using hfirst j (by omega)⟩
  · rfl

/-- Witness for C3: the duplicated name `id` resolves to position 0 of
`[id, name, id]`, and no position before 0 matches. -/
theorem header_first_match_wins_witness :
    (["id", "name", "id"].get? 0 = some "id" ∧
      ∀ j, j < 0 → ["id", "name", "id"].get? j ≠ some "id") :=
  header_first_match_wins.1 ["id", "name", "id"] "id" 0 rfl

/-- The accumulator loop of `_column_to_index` computes the positional
weighted sum of bijective base-26 digits when every character is an
ASCII letter. -/
theorem columnToIndexAux_bij : ∀ (cs : List Char) (acc : Nat),
    (∀ c ∈ cs, isAsciiLetter c = true) →
    columnToIndexAux acc cs = acc * 26 ^ cs.length + bijValue cs
  | [], acc, _ => by simp [columnToIndexAux, bijValue]
  | c :: rest, acc, h => by
    have hc : isAsciiLetter c = true := h c (by simp)
    have hrest : ∀ x ∈ rest, isAsciiLetter x = true := fun x hx => h x (by simp [hx])
    simp only [columnToIndexAux, if_pos hc, bijValue, List.length_cons]
    rw [columnToIndexAux_bij rest (acc * 26 + letterVal c) hrest]
    ring

/-- Skipping non-letter characters: the loop ignores exactly the
characters outside `string.ascii_letters`. -/
theorem columnToIndexAux_filter : ∀ (cs : List Char) (acc : Nat),
    columnToIndexAux acc (cs.filter isAsciiLetter) = columnToIndexAux acc cs
  | [], _ => rfl
  | c :: rest, acc => by
    cases hc : isAsciiLetter c
    · simp only [List.filter_cons, hc, columnToIndexAux, if_neg]
      · exact columnToIndexAux_filter rest acc
    · simp only [List.filter_cons, hc, if_pos, columnToIndexAux]
      exact columnToIndexAux_filter rest (acc * 26 + letterVal c)

/-- C2: `_column_to_index` decodes an all-ASCII-letter code as its
bijective base-26 value minus one; non-letter characters inside a code
are skipped (decoding a code equals decoding its letters-only
projection); `A`, `B`, `Z`, `AA`, `AB` decode to 0, 1, 25, 26, 27; and
when `column_letters` is the selected variant the resolver returns the
per-code decodes in order with success. -/
theorem letters_decode_bijective_base26 :
    (∀ s : String, (∀ c ∈ s.data, isAsciiLetter c = true) →
      column_to_index s = (bijValue s.data : Int) - 1) ∧
    (∀ s : String,
      column_to_index (String.mk (s.data.filter isAsciiLetter)) = column_to_index s) ∧
    (column_to_index "A" = 0 ∧ column_to_index "B" = 1 ∧ column_to_index "Z" = 25 ∧
      column_to_index "AA" = 26 ∧ column_to_index "AB" = 27) ∧
    (∀ (in_headers : Option (List String)) (p : ConfigMap) (ls : List String),
      (p.column_indexes.getD []).length = 0 → p.column_letters = some ls → ls ≠ [] →
      calculateOutputIndexes in_headers p = (true, none, ls.map column_to_index)) := by
  refine ⟨?_, ?_, by decide, ?_⟩
  · intro s h
    unfold column_to_index
    rw [columnToIndexAux_bij s.data 0 h]
    simp
  · intro s
    unfold column_to_index
    rw [show (String.mk (s.data.filter isAsciiLetter)).data = s.data.filter isAsciiLetter
        from rfl]
    rw [columnToIndexAux_filter s.data 0]
  · intro in_headers p ls h0 hp hne
    have hlen : 0 < ls.length := List.length_pos.mpr hne
    simp only [calculateOutputIndexes, hp, Option.getD_some]
    rw [if_neg (by omega), if_pos hlen]

/-- Witness for C2: the mixed-case code `aB` (both characters ASCII
letters) decodes to its bijective value minus one, and a letters-only
parameter map resolves to the decoded list in order. -/
theorem letters_decode_bijective_base26_witness :
    column_to_index "aB" = (bijValue "aB".data : Int) - 1 ∧
    calculateOutputIndexes none { column_letters := some ["C", "A"] } =
      (true, none, ["C", "A"].map column_to_index) :=
  ⟨letters_decode_bijective_base26.1 "aB" (by decide),
    letters_decode_bijective_base26.2.2.2 none _ ["C", "A"] rfl rfl (by decide)⟩

/-- C4: when at least one requested header name matches nothing in the
header row, the resolver fails (`ok = false`) yet still returns the
indexes of the names that did match, in request order with unmatched
names omitted, and the error string contains every unmatched name and
the full header row (both rendered by the f-string of lines 103-104). -/
theorem header_unmatched_partial_failure
    (hs names : List String) (p : ConfigMap)
    (h0 : (p.column_indexes.getD []).length = 0)
    (h1 : (p.column_letters.getD []).length = 0)
    (hp : p.column_headers = some names)
    (hmiss : ∃ n, n ∈ names ∧ findHeaderIndex hs n = none) :
    ∃ msg,
      calculateOutputIndexes (some hs) p =
        (false, some msg,
          names.filterMap fun h => (findHeaderIndex hs h).map Int.ofNat) ∧
      (∀ n, n ∈ names → findHeaderIndex hs n = none → strHas msg n) ∧
      strHas msg (pyReprList hs) := by
  obtain ⟨n0, hn0mem, hn0none⟩ := hmiss
  have hnames : 0 < names.length :=
    List.length_pos.mpr (by rintro rfl; simp at hn0mem)
  have hmem : ∀ n, n ∈ names → findHeaderIndex hs n = none →
      n ∈ names.filter fun h => (findHeaderIndex hs h).isNone :=
    fun n hn hnone => List.mem_filter.mpr ⟨hn, by simp [hnone]⟩
  have hflen : (names.filter fun h => (findHeaderIndex hs h).isNone).length ≠ 0 := by
    have := List.length_pos.mpr (List.ne_nil_of_mem (hmem n0 hn0mem hn0none))
    omega
  refine ⟨headerErrMsg (names.filter fun h => (findHeaderIndex hs h).isNone) hs, ?_, ?_, ?_⟩
  · simp only [calculateOutputIndexes, hp, Option.getD_some]
    rw [if_neg (by omega), if_neg (by omega), if_pos hnames]
    simp only [resolveHeaders]
    rw [if_neg hflen]
  · intro n hn hnone
    show (n.data <:+: (headerErrMsg _ hs).data)
    unfold headerErrMsg
    apply appendDataLeft
    apply appendDataLeft
    exact appendDataRight (mem_pyReprList _ n (hmem n hn hnone))
  · show ((pyReprList hs).data <:+: (headerErrMsg _ hs).data)
    unfold headerErrMsg
    exact appendDataRight ⟨[], [], by simp⟩

/-- Witness for C4: requesting `missing` against `[id, name]` fails with
a partial (here empty) index list and an error containing `missing` and
the rendered header row. -/
theorem header_unmatched_partial_failure_witness :
    ∃ msg,
      calculateOutputIndexes (some ["id", "name"]) { column_headers := some ["missing"] } =
        (false, some msg,
          ["missing"].filterMap fun h => (findHeaderIndex ["id", "name"] h).map Int.ofNat) ∧
      (∀ n, n ∈ ["missing"] → findHeaderIndex ["id", "name"] n = none → strHas msg n) ∧
      strHas msg (pyReprList ["id", "name"]) :=
  header_unmatched_partial_failure ["id", "name"] ["missing"] _ rfl rfl rfl
    ⟨"missing", by simp, rfl⟩

theorem pyGetElem_oob {r : List String} {i : Int} (h : (r.length : Int) ≤ i) :
    pyGetElem r i = .error "list index out of range" := by
  have h0 : ¬ i < 0 := by omega
  have hn : r.length ≤ i.toNat := by omega
  simp only [pyGetElem, if_neg h0]
  rw [List.get?_eq_none.mpr hn]

theorem pyGetElem_error_eq {r : List String} {i : Int} {e : String}
    (h : pyGetElem r i = .error e) : e = "list index out of range" := by
  simp only [pyGetElem] at h
  repeat' split at h
  all_goals first
  | (injection h with h2; exact h2.symm)
  | (exact absurd h (by simp))

theorem projectRow_error_of_mem : ∀ {idxs : List Int} {r : List String} {i : Int},
    i ∈ idxs → pyGetElem r i = .error "list index out of range" →
    projectRow r idxs = .error "list index out of range"
  | [], _, _, hmem, _ => by simp at hmem
  | a :: rest, r, i, hmem, herr => by
    rcases List.mem_cons.mp hmem with h | h
    · subst h
      simp [projectRow, herr]
    · cases ha : pyGetElem r a with
      | error e =>
        rw [pyGetElem_error_eq ha] at ha
        simp [projectRow, ha]
      | ok v =>
        simp [projectRow, ha, projectRow_error_of_mem h herr]

theorem projectRow_error_eq : ∀ {idxs : List Int} {r : List String} {e : String},
    projectRow r idxs = .error e → e = "list index out of range"
  | [], _, _, h => by simp [projectRow] at h
  | a :: rest, r, e, h => by
    simp only [projectRow] at h
    cases ha : pyGetElem r a with
    | error e2 =>
      rw [ha] at h
      injection h with h2
      rw [← h2]
      exact pyGetElem_error_eq ha
    | ok v =>
      rw [ha] at h
      cases hrest : projectRow r rest with
      | error e3 =>
        rw [hrest] at h
        injection h with h2
        rw [← h2]
        exact projectRow_error_eq hrest
      | ok vs =>
        rw [hrest] at h
        exact absurd h (by simp)

theorem projectRows_error_of_mem : ∀ {rows : List (List String)} {idxs : List Int}
    {r : List String}, r ∈ rows →
    projectRow r idxs = .error "list index out of range" →
    projectRows rows idxs = .error "list index out of range"
  | [], _, _, hmem, _ => by simp at hmem
  | row :: rest, idxs, r, hmem, herr => by
    rcases List.mem_cons.mp hmem with h | h
    · subst h
      simp [projectRows, herr]
    · cases hrow : projectRow row idxs with
      | error e =>
        rw [projectRow_error_eq hrow] at hrow
        simp [projectRows, hrow]
      | ok v =>
        simp [projectRows, hrow, projectRows_error_of_mem h herr]

/-- C5 (amended): whenever some loaded row is shorter than (or equal in
length to) some resolved index, the projection of lines 417-421 aborts
with the uncaught `IndexError` — the out-of-bounds cell is never
silently padded or substituted — but the error is the constant Python
message `list index out of range`, which does not identify the
offending row. -/
theorem projection_oob_fails_generic_error {rows : List (List String)}
    {idxs : List Int} {r : List String} {i : Int}
    (hr : r ∈ rows) (hi : i ∈ idxs) (hle : (r.length : Int) ≤ i) :
    projectRows rows idxs = .error "list index out of range" :=
  projectRows_error_of_mem hr (projectRow_error_of_mem hi (pyGetElem_oob hle))

/-- Witness for the amended C5: a one-cell row projected at index 1. -/
theorem projection_oob_fails_generic_error_witness :
    projectRows [["a"]] [1] = .error "list index out of range" :=
  @projection_oob_fails_generic_error [["a"]] [1] ["a"] 1 (by simp) (by simp) (by decide)

/-- Counterexample to C5 as stated: two runs whose offending rows differ
(`[zzz]` at index 1; `[qq, ww]` at index 5) abort with the identical
error text, and that text contains neither the rows' cell contents nor
their positions — the error does not identify the offending row. -/
theorem projection_oob_error_not_identifying :
    projectRows [["zzz"]] [1] = .error "list index out of range" ∧
    projectRows [["qq", "ww"], ["zzz"]] [5] = .error "list index out of range" ∧
    ¬ strHas "list index out of range" "zzz" ∧
    ¬ strHas "list index out of range" "qq" ∧
    ¬ strHas "list index out of range" "0" ∧
    ¬ strHas "list index out of range" "1" :=
  ⟨rfl, rfl, by decide, by decide, by decide, by decide⟩

theorem get?_append_cons : ∀ (pre : List String) (s : String) (suf : List String),
    (pre ++ s :: suf).get? pre.length = some s
  | [], _, _ => rfl
  | p :: pre, s, suf => by
    simp only [List.cons_append, List.length_cons, List.get?]
    exact get?_append_cons pre s suf

theorem pyGetElem_at_len (pre : List String) (s : String) (suf : List String) :
    pyGetElem (pre ++ s :: suf) (pre.length : Int) = .ok s := by
  have h0 : ¬ ((pre.length : Int) < 0) := by omega
  have ht : ((pre.length : Int)).toNat = pre.length := by omega
  simp only [pyGetElem, if_neg h0, ht]
  rw [get?_append_cons]

theorem projectRow_range' : ∀ (suf pre : List String),
    projectRow (pre ++ suf) ((List.range' pre.length suf.length).map Int.ofNat) = .ok suf
  | [], pre => by simp [projectRow, List.range']
  | s :: suf, pre => by
    rw [List.length_cons, List.range'_succ]
    simp only [List.map_cons, projectRow, Int.ofNat_eq_coe]
    rw [pyGetElem_at_len pre s suf]
    have h2 := projectRow_range' suf (pre ++ [s])
    rw [List.append_assoc] at h2
    simp only [List.singleton_append, List.length_append, List.length_cons,
      List.length_nil] at h2
    rw [h2]

theorem projectRow_full (row : List String) :
    projectRow row ((List.range row.length).map Int.ofNat) = .ok row := by
  have h := projectRow_range' row []
  rw [List.range_eq_range']
  simpa using h

/-- C6: projecting a rectangular data set onto the index list
`[0, ..., n-1]` covering all columns in original order reproduces the
data set exactly — same row count, identical cells. -/
theorem project_all_columns_round_trip :
    ∀ (rows : List (List String)) (n : Nat), (∀ r ∈ rows, r.length = n) →
    projectRows rows ((List.range n).map Int.ofNat) = .ok rows
  | [], _, _ => rfl
  | row :: rest, n, h => by
    have hrow : row.length = n := h row (by simp)
    have hrest := project_all_columns_round_trip rest n fun r hr => h r (by simp [hr])
    subst hrow
    simp only [projectRows, projectRow_full row, hrest]

/-- Witness for C6: a 2-by-2 data set projected onto `[0, 1]` is
returned unchanged. -/
theorem project_all_columns_round_trip_witness :
    projectRows [["a", "b"], ["c", "d"]] ((List.range 2).map Int.ofNat) =
      .ok [["a", "b"], ["c", "d"]] :=
  project_all_columns_round_trip [["a", "b"], ["c", "d"]] 2 (by decide)

/-- C7: with zero loaded rows, `main` fails with the empty-data
`RuntimeError` (whose text names the input file) for every
configuration, before the resolver is consulted and with no output rows
produced. -/
theorem empty_data_fails_before_resolution (input_file_path : String) (params : ConfigMap) :
    mainStep input_file_path params [] =
      .error ("Failed to read any data rows from input data file (" ++ input_file_path) :=
  rfl

theorem columnToIndexAux_no_letters : ∀ (cs : List Char) (acc : Nat),
    (∀ c ∈ cs, isAsciiLetter c = false) → columnToIndexAux acc cs = acc
  | [], _, _ => rfl
  | c :: rest, acc, h => by
    have hc : isAsciiLetter c = false := h c (by simp)
    simp only [columnToIndexAux, hc]
    exact columnToIndexAux_no_letters rest acc fun x hx => h x (by simp [hx])

/-- C9: a code with no ASCII letters (the empty string included) makes
`_column_to_index` return `-1`, and a resolver run over such a code
succeeds with a resolved index list containing a negative entry —
against the data model's promise that resolved index lists hold only
non-negative integers. -/
theorem no_letter_code_gives_negative_index :
    (∀ s : String, (∀ c ∈ s.data, isAsciiLetter c = false) → column_to_index s = -1) ∧
    calculateOutputIndexes (some ["h1"]) { column_letters := some ["?!"] } =
      (true, none, [-1]) ∧
    (-1 : Int) < 0 := by
  refine ⟨?_, rfl, by decide⟩
  intro s h
  unfold column_to_index
  rw [columnToIndexAux_no_letters s.data 0 h]
  rfl

/-- Witness for C9: the letter-free code `?!` decodes to `-1`. -/
theorem no_letter_code_gives_negative_index_witness :
    column_to_index "?!" = -1 :=
  no_letter_code_gives_negative_index.1 "?!" (by decide)

theorem char_toNat_ofNat (n : Nat) (h : n.isValidChar) : (Char.ofNat n).toNat = n := by
  unfold Char.ofNat
  rw [dif_pos h]
  unfold Char.ofNatAux Char.toNat
  simp [UInt32.toNat, UInt32.ofNat']

theorem toUpper_toNat_of_lower {c : Char} (h1 : 97 ≤ c.toNat) (h2 : c.toNat ≤ 122) :
    (Char.toUpper c).toNat = c.toNat - 32 := by
  have hv : (c.toNat - 32).isValidChar := Or.inl (by omega)
  simp only [Char.toUpper]
  rw [if_pos ⟨h1, h2⟩]
  exact char_toNat_ofNat _ hv

theorem toUpper_of_not_lower {c : Char} (h : ¬ (97 ≤ c.toNat ∧ c.toNat ≤ 122)) :
    Char.toUpper c = c := by
  simp only [Char.toUpper]
  rw [if_neg h]

theorem isAsciiLetter_toUpper (c : Char) :
    isAsciiLetter (Char.toUpper c) = isAsciiLetter c := by
  by_cases hl : 97 ≤ c.toNat ∧ c.toNat ≤ 122
  · have ht := toUpper_toNat_of_lower hl.1 hl.2
    rw [Bool.eq_iff_iff]
    simp only [isAsciiLetter, ht, Bool.or_eq_true, Bool.and_eq_true, decide_eq_true_eq]
    omega
  · rw [toUpper_of_not_lower hl]

theorem letterVal_toUpper {c : Char} (h : isAsciiLetter c = true) :
    letterVal (Char.toUpper c) = letterVal c := by
  by_cases hl : 97 ≤ c.toNat ∧ c.toNat ≤ 122
  · have ht := toUpper_toNat_of_lower hl.1 hl.2
    have hb : isAsciiLetter c = true := h
    simp only [isAsciiLetter, Bool.or_eq_true, Bool.and_eq_true, decide_eq_true_eq] at hb
    simp only [letterVal, ht]
    split <;> split <;>
      (simp only [Bool.and_eq_true, decide_eq_true_eq] at *) <;> omega
  · rw [toUpper_of_not_lower hl]

theorem columnToIndexAux_map_toUpper : ∀ (cs : List Char) (acc : Nat),
    columnToIndexAux acc (cs.map Char.toUpper) = columnToIndexAux acc cs
  | [], _ => rfl
  | c :: rest, acc => by
    simp only [List.map_cons, columnToIndexAux, isAsciiLetter_toUpper]
    cases hc : isAsciiLetter c
    · simp only [Bool.false_eq_true, if_neg]
      exact columnToIndexAux_map_toUpper rest acc
    · simp only [if_pos, letterVal_toUpper hc]
      exact columnToIndexAux_map_toUpper rest (acc * 26 + letterVal c)

/-- C10: letter decoding is case-insensitive — `_column_to_index` of any
string equals `_column_to_index` of its uppercase form. -/
theorem letter_decode_case_insensitive (s : String) :
    column_to_index (pyUpper s) = column_to_index s := by
  unfold column_to_index pyUpper
  rw [show (String.mk (s.data.map Char.toUpper)).data = s.data.map Char.toUpper from rfl]
  rw [columnToIndexAux_map_toUpper s.data 0]

theorem infixTrans {a b c : List Char} (h1 : a <:+: b) (h2 : b <:+: c) : a <:+: c :=
  h1.trans h2

theorem mem_dataFilesProblems_output {fs : FS} {cfg : ConfigRaw}
    (h : cfg.getOpt "data_files" "output_path" = none) :
    "data_files.output_path not defined" ∈ dataFilesProblems fs cfg := by
  have h1 : "data_files.output_path not defined" ∈ outputPathProblems fs cfg := by
    simp [outputPathProblems, h]
  simp only [dataFilesProblems, List.mem_append]
  tauto

theorem collectConfig_shape {fs : FS} {cfg : ConfigRaw} {probs : List String}
    {m : ConfigMap} (hcc : collectConfig fs cfg = .ok (probs, m)) :
    ∃ rest, probs = dataFilesPart fs cfg ++ rest := by
  unfold collectConfig at hcc
  by_cases hdc : cfg.hasSection "data_columns"
  · rw [if_pos hdc] at hcc
    cases hdp : dataColumnsParsed cfg with
    | error e2 =>
      rw [hdp] at hcc
      exact absurd hcc (by simp)
    | ok cols =>
      rw [hdp] at hcc
      rw [Except.ok.injEq, Prod.mk.injEq] at hcc
      exact ⟨dataColumnsProblems cfg, hcc.1.symm⟩
  · rw [if_neg hdc] at hcc
    rw [Except.ok.injEq, Prod.mk.injEq] at hcc
    exact ⟨["data_columns section not defined"], hcc.1.symm⟩

/-- C8: whenever `_validate_config` returns (rather than raising from
`int()`), `valid` is true exactly when the accumulated problem list is
empty; and if the `data_files` section is present but lacks
`output_path`, the validator fails and its single joined error string
contains `output_path`. -/
theorem validator_valid_iff_no_problems_and_missing_output_path
    (fs : FS) (cfg : ConfigRaw) (v : Bool) (e : Option String) (m : ConfigMap)
    (hok : validateConfig fs cfg = .ok (v, e, m)) :
    (∃ probs, collectConfig fs cfg = .ok (probs, m) ∧ ((v = true) ↔ probs = [])) ∧
    (cfg.hasSection "data_files" = true →
      cfg.getOpt "data_files" "output_path" = none →
      v = false ∧ ∃ msg, e = some msg ∧ strHas msg "output_path") := by
  unfold validateConfig at hok
  cases hcc : collectConfig fs cfg with
  | error e2 =>
    rw [hcc] at hok
    exact absurd hok (by simp)
  | ok pr =>
    obtain ⟨probs, cm⟩ := pr
    rw [hcc] at hok
    have hok2 : (if 0 < probs.length then
        (Except.ok (false,
          some ("one or more invalid configuration parameters identified: "
            ++ joinComma probs), cm) : Except String (Bool × Option String × ConfigMap))
      else Except.ok (true, none, cm)) = Except.ok (v, e, m) := hok
    clear hok
    by_cases hlen : 0 < probs.length
    · rw [if_pos hlen] at hok2
      rw [Except.ok.injEq, Prod.mk.injEq, Prod.mk.injEq] at hok2
      obtain ⟨hv, he, hm⟩ := hok2
      subst hv
      subst he
      subst hm
      have hne : probs ≠ [] := by
        intro hc
        subst hc
        simp at hlen
      refine ⟨⟨probs, rfl, ?_⟩, ?_⟩
      · exact ⟨fun h => absurd h (by simp), fun h => absurd h hne⟩
      · intro hsec hout
        have hmem : "data_files.output_path not defined" ∈ probs := by
          obtain ⟨rest, hshape⟩ := collectConfig_shape hcc
          rw [hshape]
          apply List.mem_append_left
          rw [dataFilesPart, if_pos hsec]
          exact mem_dataFilesProblems_output hout
        refine ⟨rfl, _, rfl, ?_⟩
        show ("output_path").data <:+:
          ("one or more invalid configuration parameters identified: "
            ++ joinComma probs).data
        apply appendDataRight
        exact infixTrans (by decide) (mem_joinComma probs _ hmem)
    · rw [if_neg hlen] at hok2
      rw [Except.ok.injEq, Prod.mk.injEq, Prod.mk.injEq] at hok2
      obtain ⟨hv, he, hm⟩ := hok2
      subst hv
      subst he
      subst hm
      have hnil : probs = [] := by
        cases probs with
        | nil => rfl
        | cons a l => simp at hlen
      refine ⟨⟨probs, rfl, by simp [hnil]⟩, ?_⟩
      intro hsec hout
      exfalso
      apply hlen
      have hmem : "data_files.output_path not defined" ∈ probs := by
        obtain ⟨rest, hshape⟩ := collectConfig_shape hcc
        rw [hshape]
        apply List.mem_append_left
        rw [dataFilesPart, if_pos hsec]
        exact mem_dataFilesProblems_output hout
      exact List.length_pos.mpr (List.ne_nil_of_mem hmem)

/-- Witness for C8: on a configuration with every option except
`output_path` present, the validator returns `valid = false` with the
single joined message naming `output_path`. -/
theorem validator_missing_output_path_witness :
    (∃ probs, collectConfig sampleFS sampleCfg = .ok (probs, sampleCM) ∧
      ((false = true) ↔ probs = [])) ∧
    (sampleCfg.hasSection "data_files" = true →
      sampleCfg.getOpt "data_files" "output_path" = none →
      false = false ∧ ∃ msg, (some sampleMsgC8 : Option String) = some msg ∧
        strHas msg "output_path") :=
  validator_valid_iff_no_problems_and_missing_output_path
    sampleFS sampleCfg false (some sampleMsgC8) sampleCM rfl
